import Mathlib

/-!
# Verification of the `cutout` polygon pipeline

Shallow embedding of the core algorithms of the `cutout` GDExtension
(contour extraction via marching squares, Voronoi / slice fracturing,
seed generation, and the shared geometry kernel), together with proofs
of the specified properties.

Modelling conventions:
* 2D float coordinates (`Vector2`, f32) are modelled as exact rationals.
  Floating-point rounding is not modelled; the properties proved here are
  about the algorithmic structure (control flow, list construction,
  guard conditions), which is unaffected by rounding.
* External library collaborators (the `delaunator` triangulator, the
  `clipper2` boolean clipper) and transcendental functions (`cos`, `sin`,
  `normalized`) are abstracted as oracle parameters: each theorem
  quantifies over every possible behaviour of the collaborator.
* Rust `HashMap` / `HashSet` (whose iteration order is unspecified) are
  modelled as insertion-ordered association lists; the properties proved
  about them hold for any iteration order.
* Machine integers (`u64` in the xorshift RNGs) are modelled as `Nat`
  reduced modulo `2 ^ 64`; `i32` / `i64` quantities are modelled as `Int`.
-/

namespace Cutout

/-- A 2D point with exact rational coordinates, modelling Godot's `Vector2`. -/
structure Vec2 where
  x : ℚ
  y : ℚ
  deriving DecidableEq, Repr

namespace Vec2

def add (a b : Vec2) : Vec2 := ⟨a.x + b.x, a.y + b.y⟩

def sub (a b : Vec2) : Vec2 := ⟨a.x - b.x, a.y - b.y⟩

def smul (a : Vec2) (t : ℚ) : Vec2 := ⟨a.x * t, a.y * t⟩

def neg (a : Vec2) : Vec2 := ⟨-a.x, -a.y⟩

/-- Dot product `a.dot(b)`. -/
def dot (a b : Vec2) : ℚ := a.x * b.x + a.y * b.y

/-- Model of `a.length_squared()`. -/
def lengthSquared (a : Vec2) : ℚ := a.x * a.x + a.y * a.y

/-- Godot's `a.lerp(b, t) = a + (b - a) * t`. -/
def lerp (a b : Vec2) (t : ℚ) : Vec2 := add a (smul (sub b a) t)

def zero : Vec2 := ⟨0, 0⟩

end Vec2

/-- Axis-aligned rectangle, modelling Godot's `Rect2`. -/
structure Rect2 where
  position : Vec2
  size : Vec2
  deriving DecidableEq, Repr

/-- Model of `Rect2.center()` as used by the slice fracturer. -/
def Rect2.center (r : Rect2) : Vec2 := r.position.add (r.size.smul (1/2))

/-! ## Geometry kernel (`fracture/geometry.rs`) -/

/-- Model of `calculate_bounds`: axis-aligned bounding rectangle of a polygon
(`fracture/geometry.rs`, lines 10–31). -/
def calculate_bounds (polygon : List Vec2) : Rect2 :=
  match polygon with
  | [] => ⟨Vec2.zero, Vec2.zero⟩
  | p0 :: rest =>
    let f := fun (acc : ℚ × ℚ × ℚ × ℚ) (p : Vec2) =>
      (min acc.1 p.x, max acc.2.1 p.x, min acc.2.2.1 p.y, max acc.2.2.2 p.y)
    let b := rest.foldl f (p0.x, p0.x, p0.y, p0.y)
    ⟨⟨b.1, b.2.2.1⟩, ⟨b.2.1 - b.1, b.2.2.2 - b.2.2.1⟩⟩

/-- One shoelace step of `polygon_area`'s loop body:
`area += p[i].x * p[j].y; area -= p[j].x * p[i].y`. -/
def shoelaceStep (polygon : List Vec2) (area : ℚ) (i : Nat) : ℚ :=
  let pi := polygon.getD i Vec2.zero
  let pj := polygon.getD ((i + 1) % polygon.length) Vec2.zero
  area + pi.x * pj.y - pj.x * pi.y

/-- Model of `polygon_area`: signed polygon area by the shoelace formula
(`fracture/geometry.rs`, lines 36–50). Degenerate polygons (<3 points)
have area 0; otherwise loop `i` over `0..n` with `j = (i+1) % n`,
accumulating the cross terms, and halve at the end. -/
def polygon_area (polygon : List Vec2) : ℚ :=
  let n := polygon.length
  if n < 3 then 0
  else ((List.range n).foldl (shoelaceStep polygon) 0) * (1/2)

/-- Model of `point_in_polygon`: ray-casting parity test
(`fracture/geometry.rs`, lines 53–82). -/
def point_in_polygon (point : Vec2) (polygon : List Vec2) : Bool :=
  let n := polygon.length
  if n < 3 then false
  else
    let step := fun (st : Bool × Vec2) (i : Nat) =>
      let p1 := st.2
      let p2 := polygon.getD (i % n) Vec2.zero
      let inside :=
        if point.y > min p1.y p2.y ∧ point.y ≤ max p1.y p2.y ∧
            point.x ≤ max p1.x p2.x ∧ p1.y ≠ p2.y then
          let xinters := (point.y - p1.y) * (p2.x - p1.x) / (p2.y - p1.y) + p1.x
          if p1.x = p2.x ∨ point.x ≤ xinters then !st.1 else st.1
        else st.1
      (inside, p2)
    (((List.range n).map (· + 1)).foldl step (false, polygon.getD 0 Vec2.zero)).1

/-- Loop body of `clip_polygon_to_half_plane` for index `i`: push `current`
when it is inside the half-plane, and push the interpolated intersection
point when the edge `current → next` crosses the plane. -/
def clipStep (polygon : List Vec2) (plane_point plane_normal : Vec2)
    (clipped : List Vec2) (i : Nat) : List Vec2 :=
  let current := polygon.getD i Vec2.zero
  let next := polygon.getD ((i + 1) % polygon.length) Vec2.zero
  let current_dist := (current.sub plane_point).dot plane_normal
  let next_dist := (next.sub plane_point).dot plane_normal
  let current_inside : Bool := decide (current_dist ≥ 0)
  let next_inside : Bool := decide (next_dist ≥ 0)
  let clipped := if current_inside then clipped ++ [current] else clipped
  if current_inside ≠ next_inside then
    let t := current_dist / (current_dist - next_dist)
    clipped ++ [current.lerp next t]
  else clipped

/-- Model of `clip_polygon_to_half_plane`: Sutherland–Hodgman single-edge clip
(`fracture/geometry.rs`, lines 88–123). Keeps the side where
`(v - plane_point) · plane_normal ≥ 0`. -/
def clip_polygon_to_half_plane (polygon : List Vec2)
    (plane_point plane_normal : Vec2) : List Vec2 :=
  if polygon.length < 3 then []
  else (List.range polygon.length).foldl
    (clipStep polygon plane_point plane_normal) []

/-- Model of `is_far_enough`: true iff `point` is at least `min_distance` away from
every point of `existing` (squared-distance comparison;
`fracture/geometry.rs`, lines 146–154). -/
def is_far_enough (point : Vec2) (existing : List Vec2)
    (min_distance : ℚ) : Bool :=
  let min_dist_sq := min_distance * min_distance
  existing.all (fun p => !((point.sub p).lengthSquared < min_dist_sq))

/-- Model of `grow_rect`: grow (or shrink) a `Rect2` by `amount` on all sides,
clamping the size to non-negative (`fracture/geometry.rs`, lines 159–167). -/
def grow_rect (rect : Rect2) (amount : ℚ) : Rect2 :=
  let pos := rect.position.sub ⟨amount, amount⟩
  let size := rect.size.add ⟨amount * 2, amount * 2⟩
  ⟨pos, ⟨max size.x 0, max size.y 0⟩⟩

/-! ## Binary grid (`common/mod.rs`, `contour/grid.rs`) -/

/-- Model of `Grid2D<bool>`: dense row-major boolean grid
(`common/mod.rs`, lines 7–12). The intended invariant is
`data.length = width * height`. -/
structure Grid2D where
  data : List Bool
  width : Nat
  height : Nat
  deriving DecidableEq, Repr

namespace Grid2D

/-- Model of `Grid2D::<bool>::get`: signed-coordinate lookup
(`common/mod.rs`, lines 98–109). Negative or out-of-range coordinates
give `none`; in-bounds coordinates index `data[y * width + x]`.
The Rust code's `self.data[idx]` (a panicking index, in bounds under the
length invariant) is rendered as `List.get?`, which is `some` exactly
when the index is within `data`. -/
def get (g : Grid2D) (x y : Int) : Option Bool :=
  if x < 0 ∨ y < 0 then none
  else
    let xn := x.toNat
    let yn := y.toNat
    if xn ≥ g.width ∨ yn ≥ g.height then none
    else g.data.get? (yn * g.width + xn)

end Grid2D

/-! ## Marching squares (`contour/marching_squares.rs`) -/

/-- Cell edge, `marching_squares.rs` lines 15–22. -/
inductive Edge where
  | top
  | right
  | bottom
  | left
  deriving DecidableEq, Repr

/-- Model of `EdgeSegment = (Edge, Edge)`. -/
abbrev EdgeSegment := Edge × Edge

/-- The 16-entry configuration table `SEGMENT_LOOKUP`
(`marching_squares.rs`, lines 26–60), index = `tl*8 + tr*4 + br*2 + bl*1`. -/
def SEGMENT_LOOKUP : List (List EdgeSegment) :=
  [ [],                                          -- 0: 0000 (empty)
    [(Edge.left, Edge.bottom)],                  -- 1: 0001 (bl only)
    [(Edge.bottom, Edge.right)],                 -- 2: 0010 (br only)
    [(Edge.left, Edge.right)],                   -- 3: 0011 (bl + br)
    [(Edge.right, Edge.top)],                    -- 4: 0100 (tr only)
    [(Edge.left, Edge.top), (Edge.bottom, Edge.right)], -- 5: 0101 (tr + bl)
    [(Edge.bottom, Edge.top)],                   -- 6: 0110 (tr + br)
    [(Edge.left, Edge.top)],                     -- 7: 0111
    [(Edge.top, Edge.left)],                     -- 8: 1000 (tl only)
    [(Edge.top, Edge.bottom)],                   -- 9: 1001 (tl + bl)
    [(Edge.top, Edge.right), (Edge.left, Edge.bottom)], -- 10: 1010 (tl + br)
    [(Edge.top, Edge.right)],                    -- 11: 1011
    [(Edge.right, Edge.left)],                   -- 12: 1100 (tl + tr)
    [(Edge.right, Edge.bottom)],                 -- 13: 1101
    [(Edge.bottom, Edge.left)],                  -- 14: 1110
    [] ]                                         -- 15: 1111 (full)

/-- Endpoint key: cell-edge midpoint at doubled integer resolution
(`Vector2i` keys in the Rust code). -/
abbrev Key := Int × Int

/-- Model of `edge_to_point`: midpoint of a cell edge, multiplied by 2 for exact
integer hashing (`marching_squares.rs`, lines 114–121). -/
def edge_to_point (cx cy : Int) (edge : Edge) : Key :=
  match edge with
  | Edge.top => (cx * 2 + 1, cy * 2)
  | Edge.right => (cx * 2 + 2, cy * 2 + 1)
  | Edge.bottom => (cx * 2 + 1, cy * 2 + 2)
  | Edge.left => (cx * 2, cy * 2 + 1)

/-- The 4-bit configuration code of the cell whose top-left corner is
`(cx, cy)`: `tl*8 | tr*4 | br*2 | bl*1`, out-of-range corners counting
as empty (`grid.get(..).unwrap_or(&false)`). -/
def cellConfig (g : Grid2D) (cx cy : Int) : Nat :=
  let tl := (g.get cx cy).getD false
  let tr := (g.get (cx + 1) cy).getD false
  let br := (g.get (cx + 1) (cy + 1)).getD false
  let bl := (g.get cx (cy + 1)).getD false
  (if tl then 8 else 0) + (if tr then 4 else 0) +
    (if br then 2 else 0) + (if bl then 1 else 0)

/-- The doubled-coordinate segments emitted for one cell. -/
def cellSegments (g : Grid2D) (cx cy : Int) : List (Key × Key) :=
  (SEGMENT_LOOKUP.getD (cellConfig g cx cy) []).map
    (fun se => (edge_to_point cx cy se.1, edge_to_point cx cy se.2))

/-- Model of `generate_segments`: all boundary segments of the bitmap, iterating
cells from `(-1, -1)` through `(width-1, height-1)` inclusive
(`marching_squares.rs`, lines 81–111). -/
def generate_segments (g : Grid2D) : List (Key × Key) :=
  (List.range (g.height + 1)).flatMap (fun cyi =>
    (List.range (g.width + 1)).flatMap (fun cxi =>
      cellSegments g ((cxi : Int) - 1) ((cyi : Int) - 1)))

/-- Recover a true grid coordinate from a doubled-integer key
(the `key / 2.0` conversions in `chain_segments`). -/
def keyToPoint (k : Key) : Vec2 := ⟨(k.1 : ℚ) / 2, (k.2 : ℚ) / 2⟩

/-- One endpoint adjacency map, modelled as an insertion-ordered
association list (the Rust code uses a `HashMap`, whose iteration order
is unspecified; the theorems below do not depend on the order). -/
abbrev Adjacency := List (Key × List Key)

/-- Model of `adjacency.entry(k).or_default().push(v)`. -/
def adjInsert (m : Adjacency) (k v : Key) : Adjacency :=
  match m with
  | [] => [(k, [v])]
  | (k0, vs) :: rest =>
    if k0 = k then (k0, vs ++ [v]) :: rest else (k0, vs) :: adjInsert rest k v

/-- Model of `adjacency.get(k)`. -/
def adjLookup (m : Adjacency) (k : Key) : Option (List Key) :=
  match m with
  | [] => none
  | (k0, vs) :: rest => if k0 = k then some vs else adjLookup rest k

/-- Build the bidirectional endpoint adjacency from the segment list
(`marching_squares.rs`, lines 129–137). -/
def buildAdjacency (segments : List (Key × Key)) : Adjacency :=
  segments.foldl (fun m se => adjInsert (adjInsert m se.1 se.2) se.2 se.1) []

/-- The bounded contour walk (`marching_squares.rs`, lines 154–169):
mark the current key visited, follow an unvisited neighbour (appending
its halved coordinates to the contour) or stop.  The Rust `for _ in
0..max_iter` loop is rendered as structural recursion on the remaining
iteration count `fuel`. Returns the final visited set and the contour. -/
def walkLoop (adjacency : Adjacency) :
    Nat → List Key → Key → List Vec2 → List Key × List Vec2
  | 0, visited, _, contour => (visited, contour)
  | fuel + 1, visited, current, contour =>
    let visited := if current ∈ visited then visited else current :: visited
    match adjLookup adjacency current with
    | none => (visited, contour)
    | some neighbours =>
      match neighbours.find? (fun n => !visited.contains n) with
      | some next_key =>
        walkLoop adjacency fuel visited next_key
          (contour ++ [keyToPoint next_key])
      | none => (visited, contour)

/-- One iteration of `chain_segments`'s outer `for` loop over adjacency
entries: skip visited start keys, otherwise walk the component and keep
the contour when it has more than 2 points. The state is (visited set,
collected contours). -/
def chainStep (adjacency : Adjacency) (max_iter : Nat)
    (st : List Key × List (List Vec2)) (entry : Key × List Key) :
    List Key × List (List Vec2) :=
  let start_key := entry.1
  if start_key ∈ st.1 then st
  else
    let r := walkLoop adjacency max_iter st.1 start_key [keyToPoint start_key]
    if r.2.length > 2 then (r.1, st.2 ++ [r.2]) else (r.1, st.2)

/-- Model of `chain_segments` (`marching_squares.rs`, lines 123–177): build the
adjacency, then walk each unvisited component, keeping contours with
more than 2 points. -/
def chain_segments (segments_doubled : List (Key × Key)) : List (List Vec2) :=
  let max_iter := segments_doubled.length
  let adjacency := buildAdjacency segments_doubled
  (adjacency.foldl (chainStep adjacency max_iter) ([], [])).2

/-- Stable insertion into a list sorted by descending length
(models the stable `contours.sort_by(|a, b| b.len().cmp(&a.len()))`). -/
def insertByLenDesc (c : List Vec2) : List (List Vec2) → List (List Vec2)
  | [] => [c]
  | d :: rest =>
    if d.length < c.length then c :: d :: rest else d :: insertByLenDesc c rest

/-- Stable sort by descending length. -/
def sortByLenDesc : List (List Vec2) → List (List Vec2)
  | [] => []
  | c :: rest => insertByLenDesc c (sortByLenDesc rest)

/-- Model of `calculate` (`marching_squares.rs`, lines 69–78): generate segments,
chain them into contours, and sort largest-first. -/
def calculate (grid : Grid2D) : List (List Vec2) :=
  sortByLenDesc (chain_segments (generate_segments grid))

/-! ## Deterministic RNGs (`fracture/seeds.rs` lines 15–50,
`fracture/slice.rs` lines 256–284) -/

/-- Model of `u64` modulus. -/
def U64 : Nat := 2 ^ 64

/-- Rust `as u64` / `as usize` cast of a signed 64-bit value
(two's-complement reinterpretation). -/
def castU64 (i : Int) : Nat := (i % (U64 : Int)).toNat

/-- Exact rational value of the `f32` constant `std::f32::consts::TAU`
(IEEE-754 single rounding of 2π). -/
def TAU32 : ℚ := 13176795 / 2 ^ 21

/-- Exact rational value of the `f32` constant `std::f32::consts::PI`. -/
def PI32 : ℚ := 13176795 / 2 ^ 22

/-- Model of `f32::to_radians`: multiply by π/180 (`PI32` model). -/
def toRadians (x : ℚ) : ℚ := x * (PI32 / 180)

/-- The seed generator's xorshift64 RNG (`seeds.rs`, lines 18–50). -/
structure Rng where
  state : Nat
  deriving DecidableEq, Repr

namespace Rng

/-- Model of `Rng::new`: zero seeds are replaced by a fixed non-zero state
(`seeds.rs`, lines 23–27). -/
def new (seed : Int) : Rng :=
  ⟨if seed = 0 then 0xDEADBEEFCAFEBABE else castU64 seed⟩

/-- Model of `Rng::next_u64`: one xorshift64 step (shifts 13, 7, 17), returning
the new state (`seeds.rs`, lines 29–34). -/
def next_u64 (r : Rng) : Nat × Rng :=
  let s := r.state
  let s := (s ^^^ (s <<< 13)) % U64
  let s := s ^^^ (s >>> 7)
  let s := (s ^^^ (s <<< 17)) % U64
  (s, ⟨s⟩)

/-- Model of `Rng::randf`: top 24 bits scaled into `[0, 1)` (`seeds.rs`,
lines 37–39). The `f32` conversion and division by `2^24` are exact. -/
def randf (r : Rng) : ℚ × Rng :=
  let (v, r) := r.next_u64
  (((v >>> 40 : Nat) : ℚ) / 2 ^ 24, r)

/-- Model of `Rng::randf_range` (`seeds.rs`, lines 42–44). -/
def randf_range (r : Rng) (lo hi : ℚ) : ℚ × Rng :=
  let (f, r) := r.randf
  (lo + f * (hi - lo), r)

/-- Model of `Rng::randi_range`: `(next_u64() as usize) % max`
(`seeds.rs`, lines 47–49). -/
def randi_range (r : Rng) (max : Nat) : Nat × Rng :=
  let (v, r) := r.next_u64
  (v % max, r)

end Rng

/-- The slice fracturer's xorshift RNG (`slice.rs`, lines 257–284). -/
structure SimpleRng where
  state : Nat
  deriving DecidableEq, Repr

namespace SimpleRng

/-- One xorshift step with shifts 13, 17, 5. -/
def step (s : Nat) : Nat :=
  let s := (s ^^^ (s <<< 13)) % U64
  let s := s ^^^ (s >>> 17)
  (s ^^^ (s <<< 5)) % U64

/-- Model of `SimpleRng::new`: absolute value of the seed (0 replaced by 1),
warmed up by 4 xorshift rounds (`slice.rs`, lines 262–271). -/
def new (seed : Int) : SimpleRng :=
  let s := if seed = 0 then 1 else seed.natAbs
  ⟨step (step (step (step s)))⟩

/-- Model of `SimpleRng::randf`: advance, then scale the state by `1 / u64::MAX`
(`slice.rs`, lines 274–279). -/
def randf (r : SimpleRng) : ℚ × SimpleRng :=
  let s := step r.state
  ((s : ℚ) / ((U64 : ℚ) - 1), ⟨s⟩)

/-- Model of `SimpleRng::randf_range` (`slice.rs`, lines 281–283). -/
def randf_range (r : SimpleRng) (lo hi : ℚ) : ℚ × SimpleRng :=
  let (f, r) := r.randf
  (lo + f * (hi - lo), r)

end SimpleRng

/-! ## Seed generation (`fracture/seeds.rs`) -/

/-- Oracle for the transcendental `f32` functions `cos` and `sin`,
which have no exact rational counterpart. Every theorem below holds for
every behaviour of this oracle. -/
structure Trig where
  cos : ℚ → ℚ
  sin : ℚ → ℚ

/-- The rejection-sampling loop of `generate_random`
(`seeds.rs`, lines 72–85), with the `for _ in 0..max_attempts` loop
rendered as recursion on the remaining attempt count. -/
def randomLoop (polygon : List Vec2) (padded : Rect2) (min_dist : ℚ)
    (target : Nat) : Nat → Rng → List Vec2 → List Vec2
  | 0, _, points => points
  | attempts + 1, rng, points =>
    if points.length ≥ target then points
    else
      let (rx, rng) := rng.randf_range padded.position.x
        (padded.position.x + padded.size.x)
      let (ry, rng) := rng.randf_range padded.position.y
        (padded.position.y + padded.size.y)
      let candidate : Vec2 := ⟨rx, ry⟩
      let points :=
        if point_in_polygon candidate polygon ∧
            is_far_enough candidate points min_dist then
          points ++ [candidate]
        else points
      randomLoop polygon padded min_dist target attempts rng points

/-- Model of `generate_random` (`seeds.rs`, lines 53–88). -/
def generate_random (polygon : List Vec2) (fragment_count : Int)
    (min_cell_distance edge_padding : ℚ) (seed : Int) : List Vec2 :=
  let rng := Rng.new seed
  let bounds := calculate_bounds polygon
  let padded := grow_rect bounds (-edge_padding)
  if padded.size.x ≤ 0 ∨ padded.size.y ≤ 0 then []
  else
    let min_dist := min padded.size.x padded.size.y * min_cell_distance
    let max_attempts := castU64 fragment_count * 10
    randomLoop polygon padded min_dist (castU64 fragment_count)
      max_attempts rng []

/-- Rust's `f32::round`: round half away from zero (used for the
per-ring seed count in `generate_radial`). -/
def roundHalfAwayFromZero (q : ℚ) : Int :=
  if 0 ≤ q then ⌊q + 1/2⌋ else -(⌊-q + 1/2⌋)

/-- Model of `generate_grid` (`seeds.rs`, lines 91–132): grid-based seed
points with jitter. Both jitter draws advance the RNG on every cell,
accepted or not, exactly as in the Rust loop. -/
def generate_grid (polygon : List Vec2) (rows cols : Int) (jitter : ℚ)
    (min_cell_distance edge_padding : ℚ) (seed : Int) : List Vec2 :=
  let rng := Rng.new seed
  let bounds := calculate_bounds polygon
  let padded := grow_rect bounds (-edge_padding)
  if padded.size.x ≤ 0 ∨ padded.size.y ≤ 0 then []
  else
    let min_dist := min padded.size.x padded.size.y * min_cell_distance
    let cell_size : Vec2 := ⟨padded.size.x / (cols : ℚ), padded.size.y / (rows : ℚ)⟩
    let r := (List.range rows.toNat).foldl
      (fun (st : Rng × List Vec2) y =>
        (List.range cols.toNat).foldl
          (fun (st : Rng × List Vec2) x =>
            let dx := st.1.randf_range (-(1/2)) (1/2)
            let dy := dx.2.randf_range (-(1/2)) (1/2)
            let jitter_offset : Vec2 :=
              ⟨dx.1 * cell_size.x * jitter, dy.1 * cell_size.y * jitter⟩
            let candidate : Vec2 :=
              ⟨padded.position.x + ((x : ℚ) + 1/2) * cell_size.x + jitter_offset.x,
               padded.position.y + ((y : ℚ) + 1/2) * cell_size.y + jitter_offset.y⟩
            let points :=
              if point_in_polygon candidate polygon ∧
                  is_far_enough candidate st.2 min_dist then
                st.2 ++ [candidate]
              else st.2
            (dy.2, points))
          st)
      (rng, [])
    r.2

/-- Model of `generate_radial` (`seeds.rs`, lines 135–200): concentric
seed rings. `trig` abstracts `cos`/`sin`; `vlen` abstracts
`Vector2::length` (a floating-point square root), used only for the
corner-distance maximum radius. -/
def generate_radial (trig : Trig) (vlen : Vec2 → ℚ) (polygon : List Vec2)
    (origin : Vec2) (ring_count : Int) (ring_size : ℚ)
    (points_per_ring : Int) (radial_variation min_cell_distance : ℚ)
    (seed : Int) : List Vec2 :=
  let rng := Rng.new seed
  let bounds := calculate_bounds polygon
  let center :=
    if origin = Vec2.zero then bounds.position.add (bounds.size.smul (1/2))
    else origin
  let min_dist := min bounds.size.x bounds.size.y * min_cell_distance
  let corners : List Vec2 :=
    [bounds.position,
     ⟨bounds.position.x + bounds.size.x, bounds.position.y⟩,
     bounds.position.add bounds.size,
     ⟨bounds.position.x, bounds.position.y + bounds.size.y⟩]
  let max_radius := (corners.map (fun c => vlen (c.sub center))).foldl max 0
  let r := (List.range ring_count.toNat).foldl
    (fun (st : Rng × List Vec2) ring_idx =>
      let ring_number : ℚ := (ring_idx : ℚ) + 1
      let base_radius := ring_number * ring_size
      let seeds_in_ring : Int :=
        max (roundHalfAwayFromZero
          ((points_per_ring : ℚ) * ring_number / (ring_count : ℚ))) 3
      (List.range seeds_in_ring.toNat).foldl
        (fun (st : Rng × List Vec2) i =>
          let angle := TAU32 * (i : ℚ) / (seeds_in_ring : ℚ)
          let d1 := st.1.randf_range (-radial_variation) radial_variation
          let radius_var := d1.1 * (max_radius / (ring_count : ℚ))
          let d2 := d1.2.randf_range (-radial_variation) radial_variation
          let angle_var := d2.1 * (TAU32 / (seeds_in_ring : ℚ))
          let radius := base_radius + radius_var
          let final_angle := angle + angle_var
          let candidate := center.add
            (Vec2.smul ⟨trig.cos final_angle, trig.sin final_angle⟩ radius)
          let points :=
            if point_in_polygon candidate polygon ∧
                is_far_enough candidate st.2 min_dist then
              st.2 ++ [candidate]
            else st.2
          (d2.2, points))
        st)
    (rng, [])
  r.2

/-- Model of `generate_spiderweb` (`seeds.rs`, lines 203–271): radial
rays with seeds at each ring intersection, the center point added first
when it lies inside the polygon. Oracles as in `generate_radial`. -/
def generate_spiderweb (trig : Trig) (vlen : Vec2 → ℚ)
    (polygon : List Vec2) (origin : Vec2) (ring_count : Int)
    (ring_size : ℚ) (points_per_ring : Int)
    (radial_variation min_cell_distance : ℚ) (seed : Int) : List Vec2 :=
  let rng := Rng.new seed
  let bounds := calculate_bounds polygon
  let center :=
    if origin = Vec2.zero then bounds.position.add (bounds.size.smul (1/2))
    else origin
  let min_dist := min bounds.size.x bounds.size.y * min_cell_distance
  let corners : List Vec2 :=
    [bounds.position,
     ⟨bounds.position.x + bounds.size.x, bounds.position.y⟩,
     bounds.position.add bounds.size,
     ⟨bounds.position.x, bounds.position.y + bounds.size.y⟩]
  let max_radius := (corners.map (fun c => vlen (c.sub center))).foldl max 0
  let points0 := if point_in_polygon center polygon then [center] else []
  let ray_count := points_per_ring
  let r := (List.range ray_count.toNat).foldl
    (fun (st : Rng × List Vec2) ray_idx =>
      let base_angle := TAU32 * (ray_idx : ℚ) / (ray_count : ℚ)
      (List.range ring_count.toNat).foldl
        (fun (st : Rng × List Vec2) ring_idx0 =>
          let ring_idx : Nat := ring_idx0 + 1
          let radius := (ring_idx : ℚ) * ring_size
          let d1 := st.1.randf_range (-radial_variation) radial_variation
          let angle_var := d1.1 * (TAU32 / (ray_count : ℚ) / 2)
          let d2 := d1.2.randf_range (-radial_variation) radial_variation
          let radius_var := d2.1 * (max_radius / (ring_count : ℚ) / 2)
          let final_angle := base_angle + angle_var
          let final_radius := radius + radius_var
          let candidate := center.add
            (Vec2.smul ⟨trig.cos final_angle, trig.sin final_angle⟩ final_radius)
          let points :=
            if point_in_polygon candidate polygon ∧
                is_far_enough candidate st.2 min_dist then
              st.2 ++ [candidate]
            else st.2
          (d2.2, points))
        st)
    (rng, points0)
  r.2

/-- The inner `for _ in 0..poisson_attempts` candidate loop of
`generate_poisson` (`seeds.rs`, lines 319–349). Returns the updated
RNG, total attempt count, accepted points, active list, and the
`found_valid` flag. -/
def poissonAttempts (trig : Trig) (polygon : List Vec2) (padded : Rect2)
    (min_dist : ℚ) (point : Vec2) :
    Nat → Rng → Nat → List Vec2 → List Vec2 →
      Rng × Nat × List Vec2 × List Vec2 × Bool
  | 0, rng, total_attempts, points, active => (rng, total_attempts, points, active, false)
  | k + 1, rng, total_attempts, points, active =>
    let total_attempts := total_attempts + 1
    let draw1 := rng.randf
    let angle := draw1.1 * TAU32
    let draw2 := draw1.2.randf
    let radius := min_dist * (1 + draw2.1)
    let rng := draw2.2
    let candidate : Vec2 :=
      point.add (Vec2.smul ⟨trig.cos angle, trig.sin angle⟩ radius)
    let in_bounds :=
      candidate.x ≥ padded.position.x ∧
      candidate.x ≤ padded.position.x + padded.size.x ∧
      candidate.y ≥ padded.position.y ∧
      candidate.y ≤ padded.position.y + padded.size.y
    if ¬ in_bounds then
      poissonAttempts trig polygon padded min_dist point k rng total_attempts points active
    else if ¬ point_in_polygon candidate polygon then
      poissonAttempts trig polygon padded min_dist point k rng total_attempts points active
    else if is_far_enough candidate points min_dist then
      (rng, total_attempts, points ++ [candidate], active ++ [candidate], true)
    else
      poissonAttempts trig polygon padded min_dist point k rng total_attempts points active

/-- Rust `Vec::swap_remove(i)`: replace element `i` with the last
element and shrink by one. -/
def swapRemove (l : List Vec2) (i : Nat) : List Vec2 :=
  if i < l.length then (l.set i (l.getD (l.length - 1) Vec2.zero)).dropLast
  else l

/-- The outer `while` loop of `generate_poisson` (`seeds.rs`,
lines 309–354), rendered as recursion on a fuel bound (the Rust loop
terminates because each iteration either raises `total_attempts`, which
is capped, or shrinks the active list; all theorems below hold for
every fuel value). -/
def poissonLoop (trig : Trig) (polygon : List Vec2) (padded : Rect2)
    (min_dist : ℚ) (fragment_count : Int) (poisson_attempts : Nat)
    (max_total_attempts : Nat) :
    Nat → Rng → Nat → List Vec2 → List Vec2 → List Vec2
  | 0, _, _, points, _ => points
  | fuel + 1, rng, total_attempts, points, active =>
    if active.isEmpty ∨ ¬ ((points.length : Int) < fragment_count) ∨
        ¬ (total_attempts < max_total_attempts) then points
    else
      let draw := rng.randi_range active.length
      let idx := draw.1
      let point := active.getD idx Vec2.zero
      let r := poissonAttempts trig polygon padded min_dist point
        poisson_attempts draw.2 total_attempts points active
      let active' := if r.2.2.2.2 then r.2.2.2.1 else swapRemove r.2.2.2.1 idx
      poissonLoop trig polygon padded min_dist fragment_count
        poisson_attempts max_total_attempts fuel r.1 r.2.1 r.2.2.1 active'

/-- The minimum seed separation used by the generators: the smaller
padded-bounding-box dimension scaled by `min_cell_distance`
(`seeds.rs`, line 290 and analogues). -/
def poisson_min_dist (polygon : List Vec2)
    (min_cell_distance edge_padding : ℚ) : ℚ :=
  let padded := grow_rect (calculate_bounds polygon) (-edge_padding)
  min padded.size.x padded.size.y * min_cell_distance

/-- Model of `generate_poisson` (`seeds.rs`, lines 274–357): Poisson-disk (blue
noise) seed generation. `fuel` bounds the outer `while` loop (see
`poissonLoop`). -/
def generate_poisson (trig : Trig) (fuel : Nat) (polygon : List Vec2)
    (fragment_count : Int) (min_cell_distance edge_padding : ℚ)
    (poisson_attempts : Int) (seed : Int) : List Vec2 :=
  let rng := Rng.new seed
  let bounds := calculate_bounds polygon
  let padded := grow_rect bounds (-edge_padding)
  if padded.size.x ≤ 0 ∨ padded.size.y ≤ 0 then []
  else
    let min_dist := poisson_min_dist polygon min_cell_distance edge_padding
    let max_total_attempts := castU64 fragment_count * castU64 poisson_attempts
    let drawx := rng.randf_range padded.position.x
      (padded.position.x + padded.size.x)
    let drawy := drawx.2.randf_range padded.position.y
      (padded.position.y + padded.size.y)
    let first : Vec2 := ⟨drawx.1, drawy.1⟩
    let points := if point_in_polygon first polygon then [first] else []
    let active := if point_in_polygon first polygon then [first] else []
    poissonLoop trig polygon padded min_dist fragment_count
      (castU64 poisson_attempts) max_total_attempts fuel drawy.2 0 points active

/-! ## Clipper2 integration (`fracture/voronoi.rs` lines 199–281,
`fracture/slice.rs` lines 176–228)

The external `clipper2` crate's `intersect` / `difference` functions are
abstracted as an oracle returning either a path list or an error. Under
the rational coordinate model the `to_clipper_path` /
`from_clipper_paths` conversions (f32 ↔ f64) are the identity, so the
oracle consumes and produces `List (List Vec2)` directly. -/

/-- Behaviour of one external clipper entry point (`intersect` or
`difference`) on a subject path list and a clip path list. -/
abbrev ClipOracle := List (List Vec2) → List (List Vec2) → Except Unit (List (List Vec2))

/-- Model of `clipper2_intersect` (`voronoi.rs` lines 221–229, `slice.rs`
lines 195–203): wrap the subject and clip in singleton path lists, call
the external `intersect`, and map failure to an empty result. -/
def clipper2_intersect (impl : ClipOracle) (subject clip : List Vec2) :
    List (List Vec2) :=
  match impl [subject] [clip] with
  | Except.ok result => result
  | Except.error _ => []

/-- Model of `clipper2_difference` (`voronoi.rs` lines 232–240, `slice.rs`
lines 205–213): wrap, call the external `difference`, and map failure to
the original subject. -/
def clipper2_difference (impl : ClipOracle) (subject clip : List Vec2) :
    List (List Vec2) :=
  match impl [subject] [clip] with
  | Except.ok result => result
  | Except.error _ => [subject]

/-- Model of `rects_intersect` (`voronoi.rs`, lines 276–281). -/
def rects_intersect (a b : Rect2) : Bool :=
  decide (a.position.x < b.position.x + b.size.x ∧
    a.position.x + a.size.x > b.position.x ∧
    a.position.y < b.position.y + b.size.y ∧
    a.position.y + a.size.y > b.position.y)

/-- Model of `subtract_holes` (`voronoi.rs`, lines 243–273): sequentially
difference each hole (skipping holes whose bounds cannot overlap the
fragment) from the accumulating piece set. -/
def subtract_holes (differenceImpl : ClipOracle) (fragment : List Vec2)
    (holes : List (List Vec2)) (hole_bounds : List Rect2) :
    List (List Vec2) :=
  if holes.isEmpty then [fragment]
  else
    let fragment_bounds := calculate_bounds fragment
    holes.enum.foldl
      (fun remaining h =>
        let hole_idx := h.1
        let hole := h.2
        if ¬ rects_intersect fragment_bounds
            (hole_bounds.getD hole_idx ⟨Vec2.zero, Vec2.zero⟩) then remaining
        else remaining.flatMap (fun piece => clipper2_difference differenceImpl piece hole))
      [fragment]

/-! ## Voronoi fracturer (`fracture/voronoi.rs`) -/

/-- Model of `delaunay` (`voronoi.rs`, lines 107–122): call the external
`delaunator` triangulation (abstracted as the `triangulate` oracle; the
f32 → f64 coordinate conversion is exact) and map an empty triangle
list to `none`. -/
def delaunay (triangulate : List Vec2 → List Nat) (points : List Vec2) :
    Option (List Nat) :=
  let result := triangulate points
  if result.isEmpty then none else some result

/-- Model of `chunks_exact(3)` over the flat triangle index list. -/
def chunks3 : List Nat → List (Nat × Nat × Nat)
  | a :: b :: c :: rest => (a, b, c) :: chunks3 rest
  | _ => []

/-- Model of `adjacency[a].push(b)` guarded by `!adjacency[a].contains(&b)`. -/
def adjPush (adj : List (List Nat)) (a b : Nat) : List (List Nat) :=
  if (adj.getD a []).contains b then adj
  else adj.set a ((adj.getD a []) ++ [b])

/-- Model of `build_adjacency` (`voronoi.rs`, lines 127–155): symmetric,
deduplicated adjacency from the triangle list. -/
def build_adjacency (num_points : Nat) (triangles : List Nat) :
    List (List Nat) :=
  (chunks3 triangles).foldl
    (fun adj t =>
      let a := t.1
      let b := t.2.1
      let c := t.2.2
      let adj := adjPush adj a b
      let adj := adjPush adj b a
      let adj := adjPush adj b c
      let adj := adjPush adj c b
      let adj := adjPush adj c a
      adjPush adj a c)
    (List.replicate num_points [])

/-- The per-seed neighbour clipping loop of `compute_voronoi_cells`
(`voronoi.rs`, lines 178–189), with the early `break` when the cell
drops below 3 vertices. `normalize` abstracts the floating-point
`Vector2::normalized` (which needs a square root). -/
def clipCellLoop (normalize : Vec2 → Vec2) (seeds : List Vec2)
    (center : Vec2) : List Nat → List Vec2 → List Vec2
  | [], cell => cell
  | j :: rest, cell =>
    let other := seeds.getD j Vec2.zero
    let midpoint := (center.add other).smul (1/2)
    let normal := normalize (center.sub other)
    let cell := clip_polygon_to_half_plane cell midpoint normal
    if cell.length < 3 then cell
    else clipCellLoop normalize seeds center rest cell

/-- Model of `compute_voronoi_cells` (`voronoi.rs`, lines 161–197): start each
cell from the bounding box and clip against every Delaunay neighbour's
perpendicular bisector, keeping cells with at least 3 vertices. -/
def compute_voronoi_cells (normalize : Vec2 → Vec2) (seeds : List Vec2)
    (adjacency : List (List Nat)) (bounds : Rect2) : List (List Vec2) :=
  (List.range seeds.length).foldl
    (fun cells i =>
      let center := seeds.getD i Vec2.zero
      let cell0 : List Vec2 :=
        [bounds.position,
         ⟨bounds.position.x + bounds.size.x, bounds.position.y⟩,
         bounds.position.add bounds.size,
         ⟨bounds.position.x, bounds.position.y + bounds.size.y⟩]
      let cell := clipCellLoop normalize seeds center (adjacency.getD i []) cell0
      if cell.length ≥ 3 then cells ++ [cell] else cells)
    []

/-- Model of `fracture` (`voronoi.rs`, lines 25–102): the Voronoi fracture entry
point, parameterized by the external collaborators (`triangulate`,
`normalized`, and the two clipper operations). -/
def fracture (triangulate : List Vec2 → List Nat) (normalize : Vec2 → Vec2)
    (intersectImpl differenceImpl : ClipOracle)
    (polygons : List (List Vec2)) (seed_points : List Vec2) :
    List (List Vec2) :=
  if polygons.isEmpty ∨ seed_points.length < 2 then []
  else
    let outer := polygons.headD []
    if outer.length < 3 then []
    else
      let seeds := seed_points
      let bounds := calculate_bounds outer
      match delaunay triangulate seeds with
      | none => polygons
      | some triangulation =>
        let adjacency := build_adjacency seeds.length triangulation
        let voronoi_cells := compute_voronoi_cells normalize seeds adjacency bounds
        let holes := (polygons.drop 1).filter (fun h => 3 ≤ h.length)
        let hole_bounds := holes.map calculate_bounds
        let fragments := voronoi_cells.flatMap (fun cell =>
          if cell.length < 3 then []
          else (clipper2_intersect intersectImpl cell outer).flatMap (fun fragment =>
            if fragment.length < 3 then []
            else (subtract_holes differenceImpl fragment holes hole_bounds).filter
              (fun piece => 3 ≤ piece.length)))
        if fragments.isEmpty then polygons else fragments

/-! ## Multi-line slice pattern generation (`fracture/slice.rs`) -/

/-- A slice segment: an ordered pair of endpoints. -/
abbrev Segment := Vec2 × Vec2

/-- Slice pattern enum (`slice.rs`, lines 237–242). -/
inductive SlicePattern where
  | radial
  | parallel
  | grid
  | chaotic
  deriving DecidableEq, Repr

/-- Model of `generate_pattern_segments` (`slice.rs`, lines 310–443): generate
the slice segment list for one pattern, threading the `SimpleRng` state
through every jitter draw exactly as the Rust loops do. Transcendental
functions come from the `trig` oracle. -/
def generate_pattern_segments (trig : Trig) (pattern : SlicePattern)
    (outer : List Vec2) (rng : SimpleRng) (slice_count : Int)
    (origin : Option Vec2)
    (radial_randomness parallel_angle parallel_angle_rand : ℚ)
    (grid_h_start grid_v_start : ℚ) (grid_h_slices grid_v_slices : Int)
    (grid_h_random grid_v_random grid_h_angle_rand grid_v_angle_rand : ℚ) :
    List Segment :=
  let bounds := calculate_bounds outer
  let center := bounds.center
  let max_extent := max bounds.size.x bounds.size.y
  match pattern with
  | SlicePattern.radial =>
    let origin := origin.getD center
    let angle_step := TAU32 / (slice_count : ℚ)
    let r := (List.range slice_count.toNat).foldl
      (fun (st : SimpleRng × List Segment) i =>
        let rng := st.1
        let angle := (i : ℚ) * angle_step
        let (angle, rng) :=
          if radial_randomness > 0 then
            let max_deviation := angle_step * radial_randomness * (1/2)
            let (d, rng) := rng.randf_range (-max_deviation) max_deviation
            (angle + d, rng)
          else (angle, rng)
        let dir : Vec2 := ⟨trig.cos angle, trig.sin angle⟩
        (rng, st.2 ++ [(origin.sub (dir.smul max_extent),
                        origin.add (dir.smul max_extent))]))
      (rng, [])
    r.2
  | SlicePattern.parallel =>
    let base_angle := toRadians parallel_angle
    let spacing := max_extent * 2 / ((slice_count : ℚ) + 1)
    let max_angle_deviation := toRadians (45 * parallel_angle_rand)
    let r := (List.range slice_count.toNat).foldl
      (fun (st : SimpleRng × List Segment) i0 =>
        let i := i0 + 1
        let rng := st.1
        let (angle, rng) :=
          if parallel_angle_rand > 0 then
            let (d, rng) := rng.randf_range (-max_angle_deviation) max_angle_deviation
            (base_angle + d, rng)
          else (base_angle, rng)
        let dir : Vec2 := ⟨trig.cos angle, trig.sin angle⟩
        let perp : Vec2 := ⟨-dir.y, dir.x⟩
        let offset := perp.smul ((i : ℚ) * spacing - max_extent)
        (rng, st.2 ++ [((center.add offset).sub (dir.smul max_extent),
                        (center.add offset).add (dir.smul max_extent))]))
      (rng, [])
    r.2
  | SlicePattern.grid =>
    let h_spacing := bounds.size.x / ((grid_h_slices : ℚ) + 1)
    let v_spacing := bounds.size.y / ((grid_v_slices : ℚ) + 1)
    let rv := (List.range grid_h_slices.toNat).foldl
      (fun (st : SimpleRng × List Segment) i =>
        let rng := st.1
        let x := grid_h_start + ((i : ℚ) + 1) * h_spacing
        let (x, rng) :=
          if grid_h_random > 0 then
            let max_jitter := h_spacing * grid_h_random * (1/2)
            let (d, rng) := rng.randf_range (-max_jitter) max_jitter
            (x + d, rng)
          else (x, rng)
        let angle := toRadians 90
        let (angle, rng) :=
          if grid_h_angle_rand > 0 then
            let max_angle_deviation := toRadians (45 * grid_h_angle_rand)
            let (d, rng) := rng.randf_range (-max_angle_deviation) max_angle_deviation
            (angle + d, rng)
          else (angle, rng)
        let dir : Vec2 := ⟨trig.cos angle, trig.sin angle⟩
        let line_center : Vec2 := ⟨x, center.y⟩
        (rng, st.2 ++ [(line_center.sub (dir.smul max_extent),
                        line_center.add (dir.smul max_extent))]))
      (rng, [])
    let rh := (List.range grid_v_slices.toNat).foldl
      (fun (st : SimpleRng × List Segment) i =>
        let rng := st.1
        let y := grid_v_start + ((i : ℚ) + 1) * v_spacing
        let (y, rng) :=
          if grid_v_random > 0 then
            let max_jitter := v_spacing * grid_v_random * (1/2)
            let (d, rng) := rng.randf_range (-max_jitter) max_jitter
            (y + d, rng)
          else (y, rng)
        let angle : ℚ := 0
        let (angle, rng) :=
          if grid_v_angle_rand > 0 then
            let max_angle_deviation := toRadians (45 * grid_v_angle_rand)
            let (d, rng) := rng.randf_range (-max_angle_deviation) max_angle_deviation
            (angle + d, rng)
          else (angle, rng)
        let dir : Vec2 := ⟨trig.cos angle, trig.sin angle⟩
        let line_center : Vec2 := ⟨center.x, y⟩
        (rng, st.2 ++ [(line_center.sub (dir.smul max_extent),
                        line_center.add (dir.smul max_extent))]))
      rv
    rh.2
  | SlicePattern.chaotic =>
    let r := (List.range slice_count.toNat).foldl
      (fun (st : SimpleRng × List Segment) _ =>
        let rng := st.1
        let (a, rng) := rng.randf
        let angle := a * TAU32
        let dir : Vec2 := ⟨trig.cos angle, trig.sin angle⟩
        let (ox, rng) := rng.randf_range (-max_extent * (1/2)) (max_extent * (1/2))
        let (oy, rng) := rng.randf_range (-max_extent * (1/2)) (max_extent * (1/2))
        let offset : Vec2 := ⟨ox, oy⟩
        (rng, st.2 ++ [((center.add offset).sub (dir.smul max_extent),
                        (center.add offset).add (dir.smul max_extent))]))
      (rng, [])
    r.2

/-! ## Theorems -/

/-- C2. The 16-entry marching-squares lookup table emits 0, 1 or 2
edge-to-edge segments for every 4-bit configuration; configurations 0
and 15 emit no segments; and each checkerboard configuration (5 = tr+bl
solid, 10 = tl+br solid) emits exactly two segments that share no cell
edge (two separate diagonals rather than one connecting segment). -/
theorem C2_segment_lookup_table :
    SEGMENT_LOOKUP.length = 16 ∧
    (∀ entry ∈ SEGMENT_LOOKUP, entry.length ≤ 2) ∧
    SEGMENT_LOOKUP.getD 0 [] = [] ∧
    SEGMENT_LOOKUP.getD 15 [] = [] ∧
    (SEGMENT_LOOKUP.getD 5 []).length = 2 ∧
    (SEGMENT_LOOKUP.getD 10 []).length = 2 ∧
    (∀ s₁ ∈ SEGMENT_LOOKUP.getD 5 [], ∀ s₂ ∈ SEGMENT_LOOKUP.getD 5 [],
      s₁ ≠ s₂ → s₁.1 ≠ s₂.1 ∧ s₁.1 ≠ s₂.2 ∧ s₁.2 ≠ s₂.1 ∧ s₁.2 ≠ s₂.2) ∧
    (∀ s₁ ∈ SEGMENT_LOOKUP.getD 10 [], ∀ s₂ ∈ SEGMENT_LOOKUP.getD 10 [],
      s₁ ≠ s₂ → s₁.1 ≠ s₂.1 ∧ s₁.1 ≠ s₂.2 ∧ s₁.2 ≠ s₂.1 ∧ s₁.2 ≠ s₂.2) := by
  decide

/-- C8. Signed grid lookup: `get x y` is `none` exactly when the
coordinates fall outside `[0, width) × [0, height)`; inside, it yields
the stored value at row-major index `y * width + x` (and in particular
never reads out of bounds), given the invariant
`data.length = width * height`. -/
theorem C8_grid_get (g : Grid2D) (x y : Int)
    (hinv : g.data.length = g.width * g.height) :
    (g.get x y = none ↔
      x < 0 ∨ y < 0 ∨ (g.width : Int) ≤ x ∨ (g.height : Int) ≤ y) ∧
    (0 ≤ x → 0 ≤ y → x < (g.width : Int) → y < (g.height : Int) →
      g.get x y = some (g.data.getD (y.toNat * g.width + x.toNat) false)) := by
  have hidx : 0 ≤ x → 0 ≤ y → x < (g.width : Int) → y < (g.height : Int) →
      y.toNat * g.width + x.toNat < g.data.length := by
    intro hx hy hxw hyh
    have hxn : x.toNat < g.width := by omega
    have hyn : y.toNat < g.height := by omega
    have h1 : y.toNat * g.width + x.toNat < (y.toNat + 1) * g.width := by
      have : (y.toNat + 1) * g.width = y.toNat * g.width + g.width := by ring
      omega
    have h2 : (y.toNat + 1) * g.width ≤ g.height * g.width :=
      Nat.mul_le_mul_right _ (by omega)
    have h3 : g.height * g.width = g.width * g.height := Nat.mul_comm _ _
    omega
  constructor
  · unfold Grid2D.get
    by_cases h1 : x < 0 ∨ y < 0
    · rw [if_pos h1]
      exact iff_of_true rfl (by omega)
    · rw [if_neg h1]
      by_cases h2 : x.toNat ≥ g.width ∨ y.toNat ≥ g.height
      · rw [if_pos h2]
        exact iff_of_true rfl (by omega)
      · rw [if_neg h2]
        have hlt := hidx (by omega) (by omega) (by omega) (by omega)
        rw [List.get?_eq_getElem?, List.getElem?_eq_getElem hlt]
        exact iff_of_false (by simp) (by omega)
  · intro hx hy hxw hyh
    have hlt := hidx hx hy hxw hyh
    unfold Grid2D.get
    have h1 : ¬ (x < 0 ∨ y < 0) := by omega
    have h2 : ¬ (x.toNat ≥ g.width ∨ y.toNat ≥ g.height) := by omega
    rw [if_neg h1, if_neg h2]
    rw [List.get?_eq_getElem?, List.getElem?_eq_getElem hlt]
    rw [List.getD_eq_getElem _ _ hlt]

/-- Closed witness for `C8_grid_get` at a concrete 2×1 grid. -/
theorem C8_grid_get_witness :
    ((Grid2D.mk [true, false] 2 1).get 1 0 = none ↔
      (1 : Int) < 0 ∨ (0 : Int) < 0 ∨ (2 : Int) ≤ 1 ∨ (1 : Int) ≤ 0) ∧
    ((0 : Int) ≤ 1 → (0 : Int) ≤ 0 → (1 : Int) < 2 → (0 : Int) < 1 →
      (Grid2D.mk [true, false] 2 1).get 1 0 =
        some ([true, false].getD ((0 : Int).toNat * 2 + (1 : Int).toNat) false)) :=
  C8_grid_get ⟨[true, false], 2, 1⟩ 1 0 (by decide)

/-- C7. When the underlying boolean clip operation reports an error,
the wrapping `clipper2_intersect` returns the empty polygon list and the
wrapping `clipper2_difference` returns exactly the original subject;
neither propagates the failure. -/
theorem C7_clipper_error_fallback (intersectImpl differenceImpl : ClipOracle)
    (subject clip : List Vec2) (e₁ e₂ : Unit)
    (hi : intersectImpl [subject] [clip] = Except.error e₁)
    (hd : differenceImpl [subject] [clip] = Except.error e₂) :
    clipper2_intersect intersectImpl subject clip = [] ∧
    clipper2_difference differenceImpl subject clip = [subject] := by
  unfold clipper2_intersect clipper2_difference
  rw [hi, hd]
  exact ⟨rfl, rfl⟩

/-- Closed witness for `C7_clipper_error_fallback` with an
always-failing clipper oracle and a concrete subject. -/
theorem C7_clipper_error_fallback_witness :
    clipper2_intersect (fun _ _ => Except.error ()) [⟨0,0⟩, ⟨1,0⟩, ⟨0,1⟩] [⟨0,0⟩, ⟨2,0⟩, ⟨0,2⟩] = [] ∧
    clipper2_difference (fun _ _ => Except.error ()) [⟨0,0⟩, ⟨1,0⟩, ⟨0,1⟩] [⟨0,0⟩, ⟨2,0⟩, ⟨0,2⟩] =
      [[⟨0,0⟩, ⟨1,0⟩, ⟨0,1⟩]] :=
  C7_clipper_error_fallback (fun _ _ => Except.error ()) (fun _ _ => Except.error ())
    [⟨0,0⟩, ⟨1,0⟩, ⟨0,1⟩] [⟨0,0⟩, ⟨2,0⟩, ⟨0,2⟩] () () rfl rfl

/-- Indexing with a default inside the list bounds hits a member. -/
theorem getD_mem (l : List Vec2) (i : Nat) (d : Vec2) (h : i < l.length) :
    l.getD i d ∈ l := by
  rw [List.getD_eq_getElem l d h]
  exact List.getElem_mem h

/-- Reading every index of a list back in order reproduces the list. -/
theorem getD_range_map (l : List Vec2) :
    (List.range l.length).map (fun i => l.getD i Vec2.zero) = l := by
  induction l with
  | nil => simp
  | cons a t ih =>
    rw [List.length_cons, List.range_succ_eq_map, List.map_cons, List.map_map]
    have h2 : ((fun i => (a :: t).getD i Vec2.zero) ∘ Nat.succ)
        = (fun i => t.getD i Vec2.zero) := rfl
    rw [h2, ih]
    rfl

/-- When every vertex lies inside the half-plane, every loop iteration
of `clip_polygon_to_half_plane` appends exactly the current vertex. -/
theorem clip_foldl_inside (polygon : List Vec2) (pp nrm : Vec2)
    (hpos : 0 < polygon.length)
    (hin : ∀ v ∈ polygon, 0 ≤ (v.sub pp).dot nrm) :
    ∀ m, m ≤ polygon.length → ∀ acc,
      (List.range m).foldl (clipStep polygon pp nrm) acc
        = acc ++ (List.range m).map (fun i => polygon.getD i Vec2.zero) := by
  intro m
  induction m with
  | zero => intro _ acc; simp
  | succ k ih =>
    intro hm acc
    rw [List.range_succ, List.foldl_append, List.map_append, ih (by omega)]
    simp only [List.foldl_cons, List.foldl_nil, List.map_cons, List.map_nil]
    unfold clipStep
    have hcur : 0 ≤ ((polygon.getD k Vec2.zero).sub pp).dot nrm :=
      hin _ (getD_mem polygon k Vec2.zero (by omega))
    have hnext : 0 ≤ ((polygon.getD ((k + 1) % polygon.length) Vec2.zero).sub pp).dot nrm :=
      hin _ (getD_mem polygon _ Vec2.zero (Nat.mod_lt _ hpos))
    simp only [ge_iff_le, decide_eq_true hcur, decide_eq_true hnext,
      if_true, ne_eq, not_true_eq_false, if_false, List.append_assoc]

/-- When every vertex lies strictly outside the half-plane, every loop
iteration of `clip_polygon_to_half_plane` appends nothing. -/
theorem clip_foldl_outside (polygon : List Vec2) (pp nrm : Vec2)
    (hpos : 0 < polygon.length)
    (hout : ∀ v ∈ polygon, (v.sub pp).dot nrm < 0) :
    ∀ m, m ≤ polygon.length → ∀ acc,
      (List.range m).foldl (clipStep polygon pp nrm) acc = acc := by
  intro m
  induction m with
  | zero => intro _ acc; simp
  | succ k ih =>
    intro hm acc
    rw [List.range_succ, List.foldl_append, ih (by omega)]
    simp only [List.foldl_cons, List.foldl_nil]
    unfold clipStep
    have hcur : ¬ (0 ≤ ((polygon.getD k Vec2.zero).sub pp).dot nrm) :=
      not_le.mpr (hout _ (getD_mem polygon k Vec2.zero (by omega)))
    have hnext : ¬ (0 ≤ ((polygon.getD ((k + 1) % polygon.length) Vec2.zero).sub pp).dot nrm) :=
      not_le.mpr (hout _ (getD_mem polygon _ Vec2.zero (Nat.mod_lt _ hpos)))
    simp only [ge_iff_le, decide_eq_false hcur, decide_eq_false hnext,
      if_false, ne_eq, not_false_eq_true, not_true_eq_false, if_true]
    simp

/-- C4. For every polygon with at least 3 points: clipping to a
half-plane containing every vertex (`(v - p)·n ≥ 0`) returns the polygon
unchanged point-for-point, and clipping to a half-plane excluding every
vertex (`(v - p)·n < 0`) returns the empty polygon. -/
theorem C4_clip_half_plane (polygon : List Vec2) (pp nrm : Vec2)
    (h3 : 3 ≤ polygon.length) :
    ((∀ v ∈ polygon, 0 ≤ (v.sub pp).dot nrm) →
      clip_polygon_to_half_plane polygon pp nrm = polygon) ∧
    ((∀ v ∈ polygon, (v.sub pp).dot nrm < 0) →
      clip_polygon_to_half_plane polygon pp nrm = []) := by
  constructor
  · intro hin
    unfold clip_polygon_to_half_plane
    rw [if_neg (by omega)]
    rw [clip_foldl_inside polygon pp nrm (by omega) hin polygon.length le_rfl []]
    rw [List.nil_append]
    exact getD_range_map polygon
  · intro hout
    unfold clip_polygon_to_half_plane
    rw [if_neg (by omega)]
    exact clip_foldl_outside polygon pp nrm (by omega) hout polygon.length le_rfl []

/-- Closed witness for `C4_clip_half_plane` at a concrete triangle:
fully inside the half-plane `x ≥ 0`, fully outside `-x > 0`. -/
theorem C4_clip_half_plane_witness :
    clip_polygon_to_half_plane [⟨1,1⟩, ⟨3,1⟩, ⟨2,4⟩] ⟨0,0⟩ ⟨1,0⟩ = [⟨1,1⟩, ⟨3,1⟩, ⟨2,4⟩] ∧
    clip_polygon_to_half_plane [⟨1,1⟩, ⟨3,1⟩, ⟨2,4⟩] ⟨0,0⟩ ⟨-1,0⟩ = [] :=
  ⟨(C4_clip_half_plane [⟨1,1⟩, ⟨3,1⟩, ⟨2,4⟩] ⟨0,0⟩ ⟨1,0⟩ (by decide)).1
      (by intro v hv; fin_cases hv <;> norm_num [Vec2.sub, Vec2.dot]),
   (C4_clip_half_plane [⟨1,1⟩, ⟨3,1⟩, ⟨2,4⟩] ⟨0,0⟩ ⟨-1,0⟩ (by decide)).2
      (by intro v hv; fin_cases hv <;> norm_num [Vec2.sub, Vec2.dot])⟩

/-- C1 (counterexample). The claim "if fewer than 2 seed points are
supplied, the original input polygon list is returned unchanged" is
false: with a valid triangle outer polygon and an empty seed list,
`fracture` returns the empty list, not the input. -/
theorem C1_counterexample :
    fracture (fun _ => []) id (fun _ _ => Except.error ()) (fun _ _ => Except.error ())
      [[⟨0,0⟩, ⟨1,0⟩, ⟨0,1⟩]] [] = [] ∧
    fracture (fun _ => []) id (fun _ _ => Except.error ()) (fun _ _ => Except.error ())
      [[⟨0,0⟩, ⟨1,0⟩, ⟨0,1⟩]] [] ≠ [[⟨0,0⟩, ⟨1,0⟩, ⟨0,1⟩]] := by
  constructor
  · simp only [fracture]
    rw [if_pos (Or.inr (by decide))]
  · simp only [fracture]
    rw [if_pos (Or.inr (by decide))]
    simp

/-- C1 (amended). For the Voronoi fracture on a polygon list
`[outer, hole*]` and a seed point list: if fewer than 2 seed points are
supplied, the empty list is returned; if the outer polygon (index 0)
has fewer than 3 vertices, the empty list is returned.  This holds for
every behaviour of the external triangulation / normalization / clipper
collaborators. -/
theorem C1_fracture_guards (triangulate : List Vec2 → List Nat)
    (normalize : Vec2 → Vec2) (intersectImpl differenceImpl : ClipOracle)
    (polygons : List (List Vec2)) (seed_points : List Vec2) :
    (seed_points.length < 2 →
      fracture triangulate normalize intersectImpl differenceImpl
        polygons seed_points = []) ∧
    ((polygons.headD []).length < 3 →
      fracture triangulate normalize intersectImpl differenceImpl
        polygons seed_points = []) := by
  constructor
  · intro h
    simp only [fracture]
    rw [if_pos (Or.inr h)]
  · intro h
    simp only [fracture]
    by_cases hp : polygons.isEmpty = true ∨ seed_points.length < 2
    · rw [if_pos hp]
    · rw [if_neg hp, if_pos h]

/-- Closed witness for `C1_fracture_guards`: a triangle with no seeds,
and a 2-vertex outer with 2 seeds, both yield the empty list. -/
theorem C1_fracture_guards_witness :
    fracture (fun _ => []) id (fun _ _ => Except.ok []) (fun _ _ => Except.ok [])
      [[⟨0,0⟩, ⟨1,0⟩, ⟨0,1⟩]] [] = [] ∧
    fracture (fun _ => []) id (fun _ _ => Except.ok []) (fun _ _ => Except.ok [])
      [[⟨0,0⟩, ⟨1,0⟩]] [⟨0,0⟩, ⟨1,1⟩] = [] :=
  ⟨(C1_fracture_guards (fun _ => []) id (fun _ _ => Except.ok []) (fun _ _ => Except.ok [])
      [[⟨0,0⟩, ⟨1,0⟩, ⟨0,1⟩]] []).1 (by decide),
   (C1_fracture_guards (fun _ => []) id (fun _ _ => Except.ok []) (fun _ _ => Except.ok [])
      [[⟨0,0⟩, ⟨1,0⟩]] [⟨0,0⟩, ⟨1,1⟩]).2 (by decide)⟩

/-- A `some` result of the signed grid lookup comes from the stored data. -/
theorem get_mem_data (g : Grid2D) (x y : Int) (v : Bool)
    (h : g.get x y = some v) : v ∈ g.data := by
  unfold Grid2D.get at h
  by_cases h1 : x < 0 ∨ y < 0
  · rw [if_pos h1] at h
    exact absurd h (by simp)
  · rw [if_neg h1] at h
    by_cases h2 : x.toNat ≥ g.width ∨ y.toNat ≥ g.height
    · rw [if_pos h2] at h
      exact absurd h (by simp)
    · rw [if_neg h2] at h
      exact List.get?_mem h

/-- On an all-empty grid every cell configuration is 0. -/
theorem cellConfig_empty (g : Grid2D) (hall : ∀ b ∈ g.data, b = false)
    (cx cy : Int) : cellConfig g cx cy = 0 := by
  have hf : ∀ x y : Int, (g.get x y).getD false = false := by
    intro x y
    cases hv : g.get x y with
    | none => rfl
    | some v => simpa using hall v (get_mem_data g x y v hv)
  simp [cellConfig, hf]

/-- On an all-empty grid no segments are generated. -/
theorem generate_segments_empty (g : Grid2D)
    (hall : ∀ b ∈ g.data, b = false) : generate_segments g = [] := by
  have h : ∀ cx cy : Int, cellSegments g cx cy = [] := by
    intro cx cy
    unfold cellSegments
    rw [cellConfig_empty g hall]
    rfl
  simp [generate_segments, h]

/-- C3. For every binary grid in which no stored value is solid,
the contour tracer's `calculate` returns the empty contour list. -/
theorem C3_empty_grid_no_contours (g : Grid2D)
    (hall : ∀ b ∈ g.data, b = false) : calculate g = [] := by
  unfold calculate
  rw [generate_segments_empty g hall]
  rfl

/-- Closed witness for `C3_empty_grid_no_contours` on a concrete
all-empty 2×2 grid. -/
theorem C3_empty_grid_no_contours_witness :
    calculate ⟨[false, false, false, false], 2, 2⟩ = [] :=
  C3_empty_grid_no_contours ⟨[false, false, false, false], 2, 2⟩ (by decide)

/-- A point whose coordinates are integer multiples of one half. -/
def halfInt (p : Vec2) : Prop :=
  ∃ a b : Int, p.x = (a : ℚ) / 2 ∧ p.y = (b : ℚ) / 2

/-- Every key conversion lands on the half-integer grid. -/
theorem keyToPoint_halfInt (k : Key) : halfInt (keyToPoint k) :=
  ⟨k.1, k.2, rfl, rfl⟩

/-- The contour walk only ever appends half-integer points. -/
theorem walkLoop_halfInt (adj : Adjacency) :
    ∀ (fuel : Nat) (visited : List Key) (current : Key) (contour : List Vec2),
      (∀ p ∈ contour, halfInt p) →
      ∀ p ∈ (walkLoop adj fuel visited current contour).2, halfInt p := by
  intro fuel
  induction fuel with
  | zero =>
    intro visited current contour h p hp
    exact h p hp
  | succ n ih =>
    intro visited current contour h p hp
    simp only [walkLoop] at hp
    split at hp
    · exact h p hp
    · split at hp
      · refine ih _ _ _ ?_ p hp
        intro q hq
        rcases List.mem_append.mp hq with h1 | h2
        · exact h q h1
        · rw [List.mem_singleton.mp h2]
          exact keyToPoint_halfInt _
      · exact h p hp

/-- The outer chaining fold only ever collects half-integer contours. -/
theorem chainFold_halfInt (adj : Adjacency) (max_iter : Nat) :
    ∀ (entries : List (Key × List Key)) (st : List Key × List (List Vec2)),
      (∀ c ∈ st.2, ∀ p ∈ c, halfInt p) →
      ∀ c ∈ (entries.foldl (chainStep adj max_iter) st).2, ∀ p ∈ c, halfInt p := by
  intro entries
  induction entries with
  | nil =>
    intro st h c hc
    exact h c hc
  | cons e rest ih =>
    intro st h c hc
    rw [List.foldl_cons] at hc
    refine ih _ ?_ c hc
    intro c' hc'
    simp only [chainStep] at hc'
    by_cases h1 : e.1 ∈ st.1
    · rw [if_pos h1] at hc'
      exact h c' hc'
    · rw [if_neg h1] at hc'
      by_cases h2 : (walkLoop adj max_iter st.1 e.1 [keyToPoint e.1]).2.length > 2
      · rw [if_pos h2] at hc'
        rcases List.mem_append.mp hc' with ha | hb
        · exact h c' ha
        · rw [List.mem_singleton.mp hb]
          refine walkLoop_halfInt adj max_iter st.1 e.1 _ ?_
          intro q hq
          rw [List.mem_singleton.mp hq]
          exact keyToPoint_halfInt _
      · rw [if_neg h2] at hc'
        exact h c' hc'

/-- Membership is preserved backwards through the stable insertion. -/
theorem mem_insertByLenDesc (c d : List Vec2) :
    ∀ l, c ∈ insertByLenDesc d l → c = d ∨ c ∈ l := by
  intro l
  induction l with
  | nil =>
    intro h
    simp only [insertByLenDesc] at h
    exact Or.inl (List.mem_singleton.mp h)
  | cons e rest ih =>
    intro h
    simp only [insertByLenDesc] at h
    split at h
    · rcases List.mem_cons.mp h with h1 | h2
      · exact Or.inl h1
      · exact Or.inr h2
    · rcases List.mem_cons.mp h with h1 | h2
      · exact Or.inr (h1 ▸ List.mem_cons_self e rest)
      · rcases ih h2 with h3 | h4
        · exact Or.inl h3
        · exact Or.inr (List.mem_cons_of_mem e h4)

/-- Membership is preserved backwards through the length-descending sort. -/
theorem mem_sortByLenDesc (c : List Vec2) :
    ∀ l, c ∈ sortByLenDesc l → c ∈ l := by
  intro l
  induction l with
  | nil =>
    intro h
    simp [sortByLenDesc] at h
  | cons e rest ih =>
    intro h
    simp only [sortByLenDesc] at h
    rcases mem_insertByLenDesc c e _ h with h1 | h2
    · exact h1 ▸ List.mem_cons_self e rest
    · exact List.mem_cons_of_mem e (ih h2)

/-- C10. Every vertex of every contour returned by the
marching-squares tracer has x and y coordinates that are exact integer
multiples of 0.5 (each output coordinate is an integer endpoint key
divided by 2). -/
theorem C10_contour_points_half_integer (g : Grid2D) (c : List Vec2)
    (p : Vec2) (hc : c ∈ calculate g) (hp : p ∈ c) :
    ∃ a b : Int, p.x = (a : ℚ) / 2 ∧ p.y = (b : ℚ) / 2 := by
  unfold calculate at hc
  have hc' := mem_sortByLenDesc c _ hc
  unfold chain_segments at hc'
  exact chainFold_halfInt _ _ _ ([], []) (by intro c' hc'; simp at hc') c hc' p hp

/-- Closed witness for `C10_contour_points_half_integer`: the single
contour traced around a lone solid pixel in a 1×1 grid. -/
theorem C10_contour_points_half_integer_witness :
    ∃ a b : Int, (keyToPoint (-1, 0)).x = (a : ℚ) / 2 ∧
      (keyToPoint (-1, 0)).y = (b : ℚ) / 2 :=
  C10_contour_points_half_integer ⟨[true], 1, 1⟩
    [keyToPoint (-1,0), keyToPoint (0,-1), keyToPoint (1,0), keyToPoint (0,1)]
    (keyToPoint (-1, 0))
    (by simp [calculate, generate_segments, cellSegments, cellConfig, Grid2D.get,
      SEGMENT_LOOKUP, edge_to_point, chain_segments, buildAdjacency, adjInsert,
      adjLookup, chainStep, walkLoop, sortByLenDesc, insertByLenDesc])
    (by simp)

/-- The shoelace cross term `a.x * b.y - b.x * a.y`. -/
def cross (a b : Vec2) : ℚ := a.x * b.y - b.x * a.y

/-- Sum of shoelace cross terms over consecutive pairs of an (open)
point path. -/
def pathSum : List Vec2 → ℚ
  | [] => 0
  | [_] => 0
  | a :: b :: t => cross a b + pathSum (b :: t)

/-- Sum of shoelace cross terms over the closed cycle of a point list
(the path plus the closing edge back to the head). -/
def cycSum (l : List Vec2) : ℚ := pathSum (l ++ l.take 1)

theorem pathSum_cons_cons (a b : Vec2) (t : List Vec2) :
    pathSum (a :: b :: t) = cross a b + pathSum (b :: t) := rfl

/-- Model of `getLastD` of a nonempty list does not depend on the default. -/
theorem getLastD_default_irrel (c : Vec2) (t : List Vec2) (d₁ d₂ : Vec2) :
    (c :: t).getLastD d₁ = (c :: t).getLastD d₂ := by
  induction t generalizing c with
  | nil => rfl
  | cons b t' _ =>
    rw [show (c :: b :: t').getLastD d₁ = (b :: t').getLastD c from
      List.getLastD_cons _ _ _]
    rw [show (c :: b :: t').getLastD d₂ = (b :: t').getLastD c from
      List.getLastD_cons _ _ _]

/-- Splitting a path sum at an append point. -/
theorem pathSum_append (b : Vec2) (t₂ : List Vec2) :
    ∀ l₁ : List Vec2, l₁ ≠ [] →
      pathSum (l₁ ++ b :: t₂)
        = pathSum l₁ + cross (l₁.getLastD Vec2.zero) b + pathSum (b :: t₂) := by
  intro l₁
  induction l₁ with
  | nil => intro h; exact absurd rfl h
  | cons a t ih =>
    intro _
    cases t with
    | nil =>
      show pathSum (a :: b :: t₂)
        = pathSum [a] + cross (List.getLastD [a] Vec2.zero) b + pathSum (b :: t₂)
      rw [pathSum_cons_cons, show pathSum [a] = 0 from rfl,
        show List.getLastD [a] Vec2.zero = a from rfl]
      ring
    | cons c t' =>
      rw [List.cons_append, List.cons_append, pathSum_cons_cons]
      have ih' := ih (by simp)
      rw [List.cons_append] at ih'
      rw [ih', pathSum_cons_cons]
      rw [show (a :: c :: t').getLastD Vec2.zero = (c :: t').getLastD a from
        List.getLastD_cons _ _ _]
      rw [getLastD_default_irrel c t' a Vec2.zero]
      ring

/-- The cycle sum is the path sum plus the closing cross term. -/
theorem cycSum_eq (l : List Vec2) (h : l ≠ []) :
    cycSum l = pathSum l + cross (l.getLastD Vec2.zero) (l.headD Vec2.zero) := by
  cases l with
  | nil => exact absurd rfl h
  | cons a t =>
    show pathSum ((a :: t) ++ [a]) = _
    rw [pathSum_append a [] (a :: t) (by simp)]
    rw [show pathSum [a] = 0 from rfl, List.headD_cons]
    ring

/-- The cycle sum is invariant under a one-step rotation. -/
theorem cycSum_rotate_one (l : List Vec2) : cycSum (l.rotate 1) = cycSum l := by
  cases l with
  | nil => rw [List.rotate_nil]
  | cons a t =>
    cases t with
    | nil => rw [List.rotate_singleton]
    | cons b t' =>
      rw [List.rotate_cons_succ, List.rotate_zero]
      rw [cycSum_eq _ (by simp), cycSum_eq _ (by simp)]
      rw [pathSum_append a [] (b :: t') (by simp)]
      rw [List.getLastD_concat, List.cons_append, List.headD_cons, List.headD_cons]
      rw [pathSum_cons_cons]
      rw [show (a :: b :: t').getLastD Vec2.zero = (b :: t').getLastD a from
        List.getLastD_cons _ _ _]
      rw [getLastD_default_irrel b t' a Vec2.zero]
      rw [show pathSum [a] = 0 from rfl]
      ring

/-- The cycle sum is invariant under every rotation. -/
theorem cycSum_rotate (l : List Vec2) (k : Nat) :
    cycSum (l.rotate k) = cycSum l := by
  induction k generalizing l with
  | zero => rw [List.rotate_zero]
  | succ n ih =>
    have h : l.rotate (n + 1) = (l.rotate 1).rotate n := by
      rw [List.rotate_rotate, Nat.add_comm]
    rw [h, ih, cycSum_rotate_one]

/-- Reversing a path negates its path sum. -/
theorem pathSum_reverse (l : List Vec2) : pathSum l.reverse = -pathSum l := by
  induction l with
  | nil => simp [pathSum]
  | cons a t ih =>
    cases t with
    | nil => simp [pathSum]
    | cons b t' =>
      rw [List.reverse_cons]
      rw [pathSum_append a [] ((b :: t').reverse) (by simp)]
      rw [ih]
      have hl : ((b :: t').reverse).getLastD Vec2.zero = b := by
        rw [List.getLastD_eq_getLast?, List.getLast?_reverse]
        rfl
      rw [hl, pathSum_cons_cons]
      rw [show pathSum [a] = 0 from rfl]
      unfold cross
      ring

/-- Reversing a point list negates its cycle sum. -/
theorem cycSum_reverse (l : List Vec2) : cycSum l.reverse = -cycSum l := by
  cases l with
  | nil => simp [cycSum, pathSum]
  | cons a t =>
    rw [cycSum_eq ((a :: t).reverse) (by simp), cycSum_eq _ (by simp)]
    rw [pathSum_reverse]
    have h1 : ((a :: t).reverse).getLastD Vec2.zero = a := by
      rw [List.getLastD_eq_getLast?, List.getLast?_reverse]
      rfl
    have h2 : ((a :: t).reverse).headD Vec2.zero = (a :: t).getLastD Vec2.zero := by
      rw [List.headD_eq_head?, List.head?_reverse, List.getLastD_eq_getLast?]
    rw [h1, h2, List.headD_cons]
    unfold cross
    ring

/-- The shoelace fold accumulates the cross-term sum. -/
theorem foldl_shoelace (polygon : List Vec2) :
    ∀ (idxs : List Nat) (acc : ℚ),
      idxs.foldl (shoelaceStep polygon) acc
        = acc + (idxs.map (fun i => cross (polygon.getD i Vec2.zero)
            (polygon.getD ((i + 1) % polygon.length) Vec2.zero))).sum := by
  intro idxs
  induction idxs with
  | nil => intro acc; simp
  | cons i rest ih =>
    intro acc
    rw [List.foldl_cons, ih, List.map_cons, List.sum_cons]
    unfold shoelaceStep cross
    ring

/-- Summing consecutive cross terms over all but the last index gives
the path sum. -/
theorem sum_consec (l : List Vec2) :
    ((List.range (l.length - 1)).map
      (fun i => cross (l.getD i Vec2.zero) (l.getD (i + 1) Vec2.zero))).sum
      = pathSum l := by
  induction l with
  | nil => simp [pathSum]
  | cons a t ih =>
    cases t with
    | nil => simp [pathSum]
    | cons b t' =>
      rw [show (a :: b :: t').length - 1 = (b :: t').length - 1 + 1 by simp]
      rw [List.range_succ_eq_map, List.map_cons, List.map_map, List.sum_cons]
      have hcomp : ((fun i => cross ((a :: b :: t').getD i Vec2.zero)
            ((a :: b :: t').getD (i + 1) Vec2.zero)) ∘ Nat.succ)
          = (fun i => cross ((b :: t').getD i Vec2.zero)
            ((b :: t').getD (i + 1) Vec2.zero)) := rfl
      rw [hcomp, ih, pathSum_cons_cons]
      rfl

/-- The last index reads the last element. -/
theorem getD_last_index (l : List Vec2) (h : l ≠ []) :
    l.getD (l.length - 1) Vec2.zero = l.getLastD Vec2.zero := by
  have h1 : l.length - 1 < l.length := by
    cases l with
    | nil => exact absurd rfl h
    | cons a t => simp
  rw [List.getD_eq_getElem _ _ h1, List.getLastD_eq_getLast?,
    List.getLast?_eq_getElem?, List.getElem?_eq_getElem h1]
  rfl

/-- Index 0 reads the head. -/
theorem getD_zero_index (l : List Vec2) :
    l.getD 0 Vec2.zero = l.headD Vec2.zero := by
  cases l <;> rfl

/-- Bridge: `polygon_area` equals half the cycle sum (or 0 when
degenerate). -/
theorem polygon_area_eq (l : List Vec2) :
    polygon_area l = if l.length < 3 then 0 else cycSum l * (1/2) := by
  unfold polygon_area
  by_cases h : l.length < 3
  · rw [if_pos h, if_pos h]
  · rw [if_neg h, if_neg h]
    congr 1
    rw [foldl_shoelace, zero_add]
    obtain ⟨m, hm⟩ : ∃ m, l.length = m + 1 := ⟨l.length - 1, by omega⟩
    have hne : l ≠ [] := by
      cases l with
      | nil => simp at h
      | cons a t => simp
    have hsplit : List.range l.length = List.range m ++ [m] := by
      rw [hm]
      exact List.range_succ m
    have hlast : (m + 1) % l.length = 0 := by rw [hm, Nat.mod_self]
    have hmap : (List.range m).map (fun i => cross (l.getD i Vec2.zero)
          (l.getD ((i + 1) % l.length) Vec2.zero))
        = (List.range m).map (fun i => cross (l.getD i Vec2.zero)
          (l.getD (i + 1) Vec2.zero)) := by
      refine List.map_congr_left ?_
      intro i hi
      have hlt : (i + 1) % l.length = i + 1 := by
        rw [List.mem_range] at hi
        exact Nat.mod_eq_of_lt (by omega)
      rw [hlt]
    rw [hsplit, List.map_append, List.sum_append, hmap]
    simp only [List.map_cons, List.map_nil, List.sum_cons, List.sum_nil, hlast]
    have hm' : m = l.length - 1 := by omega
    rw [hm', sum_consec, getD_last_index l hne, getD_zero_index, cycSum_eq l hne]
    ring

/-- C9. The shoelace signed area is invariant under every cyclic
rotation of the point list, negates under reversal, and is 0 for lists
with fewer than 3 points. -/
theorem C9_signed_area_props :
    (∀ (l : List Vec2) (k : Nat), polygon_area (l.rotate k) = polygon_area l) ∧
    (∀ l : List Vec2, polygon_area l.reverse = -polygon_area l) ∧
    (∀ l : List Vec2, l.length < 3 → polygon_area l = 0) := by
  refine ⟨?_, ?_, ?_⟩
  · intro l k
    rw [polygon_area_eq, polygon_area_eq, List.length_rotate]
    by_cases h : l.length < 3
    · rw [if_pos h, if_pos h]
    · rw [if_neg h, if_neg h, cycSum_rotate]
  · intro l
    rw [polygon_area_eq, polygon_area_eq, List.length_reverse]
    by_cases h : l.length < 3
    · rw [if_pos h, if_pos h]
      ring
    · rw [if_neg h, if_neg h, cycSum_reverse]
      ring
  · intro l h
    unfold polygon_area
    rw [if_pos h]

/-- Closed witness for `C9_signed_area_props` at a concrete square and
a concrete degenerate 2-point list. -/
theorem C9_signed_area_props_witness :
    polygon_area (([⟨0,0⟩, ⟨2,0⟩, ⟨2,2⟩, ⟨0,2⟩] : List Vec2).rotate 1)
      = polygon_area [⟨0,0⟩, ⟨2,0⟩, ⟨2,2⟩, ⟨0,2⟩] ∧
    polygon_area (([⟨0,0⟩, ⟨2,0⟩, ⟨2,2⟩, ⟨0,2⟩] : List Vec2).reverse)
      = -polygon_area [⟨0,0⟩, ⟨2,0⟩, ⟨2,2⟩, ⟨0,2⟩] ∧
    polygon_area [⟨0,0⟩, ⟨1,1⟩] = 0 :=
  ⟨C9_signed_area_props.1 [⟨0,0⟩, ⟨2,0⟩, ⟨2,2⟩, ⟨0,2⟩] 1,
   C9_signed_area_props.2.1 [⟨0,0⟩, ⟨2,0⟩, ⟨2,2⟩, ⟨0,2⟩],
   C9_signed_area_props.2.2 [⟨0,0⟩, ⟨1,1⟩] (by decide)⟩

/-- Squared length of a difference is symmetric. -/
theorem lengthSquared_sub_comm (a b : Vec2) :
    (a.sub b).lengthSquared = (b.sub a).lengthSquared := by
  unfold Vec2.sub Vec2.lengthSquared
  ring

/-- What `is_far_enough` actually guarantees: every existing point is at
squared distance at least `md * md` from the candidate. -/
theorem far_enough_spec (c : Vec2) (pts : List Vec2) (md : ℚ)
    (h : is_far_enough c pts md = true) :
    ∀ p ∈ pts, md * md ≤ (p.sub c).lengthSquared := by
  intro p hp
  unfold is_far_enough at h
  rw [List.all_eq_true] at h
  have h2 := h p hp
  rw [lengthSquared_sub_comm]
  simpa using h2

/-- The minimum-separation relation used throughout the Poisson proofs. -/
def FarPair (md : ℚ) (p q : Vec2) : Prop :=
  md * md ≤ (p.sub q).lengthSquared

/-- Appending a point far from all previous ones keeps the list
pairwise separated. -/
theorem pairwise_append_far (md : ℚ) (pts : List Vec2) (c : Vec2)
    (h : pts.Pairwise (FarPair md)) (hall : ∀ p ∈ pts, FarPair md p c) :
    (pts ++ [c]).Pairwise (FarPair md) := by
  rw [List.pairwise_append]
  refine ⟨h, List.pairwise_singleton _ _, ?_⟩
  intro p hp q hq
  rw [List.mem_singleton] at hq
  rw [hq]
  exact hall p hp

/-- The inner Poisson attempt loop preserves pairwise separation of the
accepted points (it only ever appends a candidate that passed
`is_far_enough`). -/
theorem poissonAttempts_pairwise (trig : Trig) (polygon : List Vec2)
    (padded : Rect2) (md : ℚ) (point : Vec2) :
    ∀ (k : Nat) (rng : Rng) (ta : Nat) (points active : List Vec2),
      points.Pairwise (FarPair md) →
      ((poissonAttempts trig polygon padded md point k rng ta points
          active).2.2.1).Pairwise (FarPair md) := by
  intro k
  induction k with
  | zero =>
    intro rng ta points active h
    exact h
  | succ n ih =>
    intro rng ta points active h
    simp only [poissonAttempts]
    split
    · exact ih _ _ _ _ h
    · split
      · exact ih _ _ _ _ h
      · split
        · next hfar =>
          exact pairwise_append_far md points _ h (far_enough_spec _ _ _ hfar)
        · exact ih _ _ _ _ h

/-- The outer Poisson loop preserves pairwise separation. -/
theorem poissonLoop_pairwise (trig : Trig) (polygon : List Vec2)
    (padded : Rect2) (md : ℚ) (fragment_count : Int)
    (poisson_attempts max_total_attempts : Nat) :
    ∀ (fuel : Nat) (rng : Rng) (ta : Nat) (points active : List Vec2),
      points.Pairwise (FarPair md) →
      (poissonLoop trig polygon padded md fragment_count poisson_attempts
        max_total_attempts fuel rng ta points active).Pairwise (FarPair md) := by
  intro fuel
  induction fuel with
  | zero =>
    intro rng ta points active h
    exact h
  | succ n ih =>
    intro rng ta points active h
    simp only [poissonLoop]
    split
    · exact h
    · exact ih _ _ _ _ (poissonAttempts_pairwise trig polygon padded md _ _ _ _ _ _ h)

/-- C5. Poisson-disk seed generation never returns two points whose
squared Euclidean distance is below the square of the configured
minimum distance (`min_cell_distance` scaled by the smaller dimension
of the polygon's padded bounding box): the returned list is pairwise
separated. Holds for every trig oracle and every loop-fuel bound. -/
theorem C5_poisson_min_separation (trig : Trig) (fuel : Nat)
    (polygon : List Vec2) (fragment_count : Int)
    (min_cell_distance edge_padding : ℚ) (poisson_attempts seed : Int) :
    (generate_poisson trig fuel polygon fragment_count min_cell_distance
      edge_padding poisson_attempts seed).Pairwise
      (FarPair (poisson_min_dist polygon min_cell_distance edge_padding)) := by
  unfold generate_poisson
  dsimp only
  split
  · exact List.Pairwise.nil
  · refine poissonLoop_pairwise _ _ _ _ _ _ _ _ _ _ _ _ ?_
    split
    · exact List.pairwise_singleton _ _
    · exact List.Pairwise.nil

/-- C6. Seed generation (all five strategies: random, jittered grid,
radial rings, spiderweb, Poisson-disk) and multi-line slice-pattern
generation are deterministic: two calls with identical seed, polygon
and parameters produce identical point / segment sequences. In this
embedding the generators are pure functions whose only randomness
source is the explicit xorshift state derived from the seed (`Rng.new`
/ `SimpleRng.new`), so equal seeds give equal outputs for every pattern
and every oracle behaviour. -/
theorem C6_seed_determinism (trig : Trig) (vlen : Vec2 → ℚ) :
    (∀ (polygon : List Vec2) (fragment_count : Int) (mcd ep : ℚ) (s₁ s₂ : Int),
      s₁ = s₂ →
      generate_random polygon fragment_count mcd ep s₁
        = generate_random polygon fragment_count mcd ep s₂) ∧
    (∀ (polygon : List Vec2) (rows cols : Int) (jit mcd ep : ℚ) (s₁ s₂ : Int),
      s₁ = s₂ →
      generate_grid polygon rows cols jit mcd ep s₁
        = generate_grid polygon rows cols jit mcd ep s₂) ∧
    (∀ (polygon : List Vec2) (origin : Vec2) (rc : Int) (rs : ℚ) (ppr : Int)
        (rv mcd : ℚ) (s₁ s₂ : Int), s₁ = s₂ →
      generate_radial trig vlen polygon origin rc rs ppr rv mcd s₁
        = generate_radial trig vlen polygon origin rc rs ppr rv mcd s₂) ∧
    (∀ (polygon : List Vec2) (origin : Vec2) (rc : Int) (rs : ℚ) (ppr : Int)
        (rv mcd : ℚ) (s₁ s₂ : Int), s₁ = s₂ →
      generate_spiderweb trig vlen polygon origin rc rs ppr rv mcd s₁
        = generate_spiderweb trig vlen polygon origin rc rs ppr rv mcd s₂) ∧
    (∀ (fuel : Nat) (polygon : List Vec2) (fc : Int) (mcd ep : ℚ) (pa s₁ s₂ : Int),
      s₁ = s₂ →
      generate_poisson trig fuel polygon fc mcd ep pa s₁
        = generate_poisson trig fuel polygon fc mcd ep pa s₂) ∧
    (∀ (pattern : SlicePattern) (outer : List Vec2) (sc : Int)
        (origin : Option Vec2) (rr pa par ghs gvs : ℚ) (ghsl gvsl : Int)
        (ghr gvr gha gva : ℚ) (s₁ s₂ : Int), s₁ = s₂ →
      generate_pattern_segments trig pattern outer (SimpleRng.new s₁) sc origin
          rr pa par ghs gvs ghsl gvsl ghr gvr gha gva
        = generate_pattern_segments trig pattern outer (SimpleRng.new s₂) sc origin
          rr pa par ghs gvs ghsl gvsl ghr gvr gha gva) := by
  refine ⟨?_, ?_, ?_, ?_, ?_, ?_⟩
  · intro polygon fragment_count mcd ep s₁ s₂ hs
    rw [hs]
  · intro polygon rows cols jit mcd ep s₁ s₂ hs
    rw [hs]
  · intro polygon origin rc rs ppr rv mcd s₁ s₂ hs
    rw [hs]
  · intro polygon origin rc rs ppr rv mcd s₁ s₂ hs
    rw [hs]
  · intro fuel polygon fc mcd ep pa s₁ s₂ hs
    rw [hs]
  · intro pattern outer sc origin rr pa par ghs gvs ghsl gvsl ghr gvr gha gva s₁ s₂ hs
    rw [hs]

/-- Closed witness for `C6_seed_determinism` at concrete seeds and
parameters, one instance per generator. -/
theorem C6_seed_determinism_witness :
    generate_random [⟨0,0⟩, ⟨4,0⟩, ⟨0,4⟩] 3 (1/10) 0 42
      = generate_random [⟨0,0⟩, ⟨4,0⟩, ⟨0,4⟩] 3 (1/10) 0 42 ∧
    generate_grid [⟨0,0⟩, ⟨4,0⟩, ⟨0,4⟩] 2 2 (1/2) (1/10) 0 11
      = generate_grid [⟨0,0⟩, ⟨4,0⟩, ⟨0,4⟩] 2 2 (1/2) (1/10) 0 11 ∧
    generate_radial ⟨fun _ => 1, fun _ => 0⟩ (fun _ => 1)
        [⟨0,0⟩, ⟨4,0⟩, ⟨0,4⟩] ⟨1,1⟩ 2 1 4 (1/10) (1/10) 13
      = generate_radial ⟨fun _ => 1, fun _ => 0⟩ (fun _ => 1)
        [⟨0,0⟩, ⟨4,0⟩, ⟨0,4⟩] ⟨1,1⟩ 2 1 4 (1/10) (1/10) 13 ∧
    generate_spiderweb ⟨fun _ => 1, fun _ => 0⟩ (fun _ => 1)
        [⟨0,0⟩, ⟨4,0⟩, ⟨0,4⟩] ⟨1,1⟩ 2 1 4 (1/10) (1/10) 17
      = generate_spiderweb ⟨fun _ => 1, fun _ => 0⟩ (fun _ => 1)
        [⟨0,0⟩, ⟨4,0⟩, ⟨0,4⟩] ⟨1,1⟩ 2 1 4 (1/10) (1/10) 17 ∧
    generate_poisson ⟨fun _ => 1, fun _ => 0⟩ 50 [⟨0,0⟩, ⟨4,0⟩, ⟨0,4⟩] 3 (1/10) 0 5 7
      = generate_poisson ⟨fun _ => 1, fun _ => 0⟩ 50 [⟨0,0⟩, ⟨4,0⟩, ⟨0,4⟩] 3 (1/10) 0 5 7 ∧
    generate_pattern_segments ⟨fun _ => 1, fun _ => 0⟩ SlicePattern.chaotic
        [⟨0,0⟩, ⟨4,0⟩, ⟨0,4⟩] (SimpleRng.new 9) 4 none 0 0 0 0 0 0 0 0 0 0 0
      = generate_pattern_segments ⟨fun _ => 1, fun _ => 0⟩ SlicePattern.chaotic
        [⟨0,0⟩, ⟨4,0⟩, ⟨0,4⟩] (SimpleRng.new 9) 4 none 0 0 0 0 0 0 0 0 0 0 0 :=
  ⟨(C6_seed_determinism ⟨fun _ => 1, fun _ => 0⟩ (fun _ => 1)).1
     [⟨0,0⟩, ⟨4,0⟩, ⟨0,4⟩] 3 (1/10) 0 42 42 rfl,
   (C6_seed_determinism ⟨fun _ => 1, fun _ => 0⟩ (fun _ => 1)).2.1
     [⟨0,0⟩, ⟨4,0⟩, ⟨0,4⟩] 2 2 (1/2) (1/10) 0 11 11 rfl,
   (C6_seed_determinism ⟨fun _ => 1, fun _ => 0⟩ (fun _ => 1)).2.2.1
     [⟨0,0⟩, ⟨4,0⟩, ⟨0,4⟩] ⟨1,1⟩ 2 1 4 (1/10) (1/10) 13 13 rfl,
   (C6_seed_determinism ⟨fun _ => 1, fun _ => 0⟩ (fun _ => 1)).2.2.2.1
     [⟨0,0⟩, ⟨4,0⟩, ⟨0,4⟩] ⟨1,1⟩ 2 1 4 (1/10) (1/10) 17 17 rfl,
   (C6_seed_determinism ⟨fun _ => 1, fun _ => 0⟩ (fun _ => 1)).2.2.2.2.1
     50 [⟨0,0⟩, ⟨4,0⟩, ⟨0,4⟩] 3 (1/10) 0 5 7 7 rfl,
   (C6_seed_determinism ⟨fun _ => 1, fun _ => 0⟩ (fun _ => 1)).2.2.2.2.2
     SlicePattern.chaotic [⟨0,0⟩, ⟨4,0⟩, ⟨0,4⟩] 4 none 0 0 0 0 0 0 0 0 0 0 0 9 9 rfl⟩

end Cutout
